import Mathlib

/-!
# Verification of the `grammy-bot-template` rate limiter

Shallow embedding of the token-bucket rate limiter of the repository:

* the Lua token-bucket script `TOKEN_BUCKET_SCRIPT` and the service method
  `checkTokenBucket` from `src/services/rateLimitService.ts`;
* the `rateLimit` middleware and `createAdminRateLimit` from
  `src/middleware/rateLimit.ts`.

Numeric conventions: Lua/JS numbers carrying token amounts are modelled as
rationals (`ℚ`).  Timestamps are the whole seconds the service passes to the
script (`Math.floor(Date.now() / 1000)`), modelled as integers (`ℤ`).  The
wall-clock `reset` field of `RateLimitResult` (epoch-millisecond arithmetic on
`Date.now()`, lines 75/98/107 of rateLimitService.ts) carries no decision
content and is not modelled.  The Lua script is sent to the store as a single
`EVAL`, which the store executes indivisibly; accordingly one script execution
is one atomic step `Option Bucket → Bucket × ScriptResult` here, and
concurrent executions against one key are interleavings of such steps.
-/

namespace GrammyRateLimit

/-- A stored bucket record: the hash fields `tokens` and `lastRefill`
(rateLimitService.ts, Lua script lines 24-26). -/
structure Bucket where
  tokens : ℚ
  lastRefill : ℤ
deriving Repr, DecidableEq

/-- `TokenBucketConfig` (rateLimitService.ts lines 11-14):
`capacity` in tokens, `refillRate` in tokens per second. -/
structure TokenBucketConfig where
  capacity : ℚ
  refillRate : ℚ
deriving Repr, DecidableEq

/-- What the Lua script returns to the service: `{1, capacity - currentTokens}`
on success, `{0, 0, retryAfter}` on denial (script lines 37 and 42).
`retryAfter` is in whole seconds. -/
structure ScriptResult where
  allowed : Bool
  remaining : ℚ
  retryAfter : Option ℤ
deriving Repr, DecidableEq

/-- Lua script lines 24-31: read `tokens`/`lastRefill` (absent record means
`tokens = capacity`, `lastRefill = now`), compute `elapsed = now - lastRefill`
— the source has no clamping of a negative `elapsed` — and refill
`min(capacity, currentTokens + elapsed * refillRate)`. -/
def refilledTokens (cfg : TokenBucketConfig) (now : ℤ) (bucket : Option Bucket) : ℚ :=
  let currentTokens : ℚ := (bucket.map Bucket.tokens).getD cfg.capacity
  let lastRefill : ℤ := (bucket.map Bucket.lastRefill).getD now
  let elapsed : ℤ := now - lastRefill
  let tokensToAdd : ℚ := (elapsed : ℚ) * cfg.refillRate
  min cfg.capacity (currentTokens + tokensToAdd)

/-- The whole Lua script `TOKEN_BUCKET_SCRIPT` (rateLimitService.ts lines
17-44) as one atomic step on the record stored under the key: lines 33-37 on
success (`currentTokens >= tokens`, i.e. `tokens ≤ currentTokens`), lines
38-43 on denial; both branches persist `(currentTokens, now)` via `HMSET`.
The first component is the record written to the store, the second the reply.
The `EXPIRE` both branches issue is `scriptExpireSeconds` below. -/
def tokenBucketScript (cfg : TokenBucketConfig) (tokens : ℚ) (now : ℤ)
    (bucket : Option Bucket) : Bucket × ScriptResult :=
  if tokens ≤ refilledTokens cfg now bucket then
    (⟨refilledTokens cfg now bucket - tokens, now⟩,
     ⟨true, cfg.capacity - (refilledTokens cfg now bucket - tokens), none⟩)
  else
    (⟨refilledTokens cfg now bucket, now⟩,
     ⟨false, 0, some ⌈(tokens - refilledTokens cfg now bucket) / cfg.refillRate⌉⟩)

/-- The time-to-live both script branches set:
`EXPIRE key math.ceil(capacity / refillRate)` (script lines 36 and 40). -/
def scriptExpireSeconds (cfg : TokenBucketConfig) : ℤ :=
  ⌈cfg.capacity / cfg.refillRate⌉

/-- The service-level result of `checkTokenBucket` (rateLimitService.ts lines
4-9); `retryAfterMs` is in milliseconds.  The wall-clock `reset` field is not
modelled (see the file header). -/
structure RateLimitResult where
  allowed : Bool
  remaining : ℚ
  retryAfterMs : Option ℤ
deriving Repr, DecidableEq

/-- Line 99 of rateLimitService.ts: `retryAfter ? retryAfter * 1000 :
undefined`.  JavaScript truthiness: an absent third array element and a zero
value both map to `undefined`. -/
def retryAfterToMs : Option ℤ → Option ℤ
  | none => none
  | some n => if n = 0 then none else some (n * 1000)

/-- Lines 91-100 of rateLimitService.ts: unpack the script reply into a
`RateLimitResult`. -/
def serviceResult (r : ScriptResult) : RateLimitResult :=
  ⟨r.allowed, r.remaining, retryAfterToMs r.retryAfter⟩

/-- The synthetic result `checkTokenBucket` fabricates when the limiter is
disabled (lines 71-77) or when the store call throws (lines 101-109,
`// Fail open - allow the request if Redis fails`):
`allowed: true, remaining: config.capacity`. -/
def failOpenResult (cfg : TokenBucketConfig) : RateLimitResult :=
  ⟨true, cfg.capacity, none⟩

/-- How one `EVAL` round trip to the store can go: the store answers with the
current record under the key, or the call raises an error. -/
inductive StoreOutcome
  | ok : Option Bucket → StoreOutcome
  | err : StoreOutcome
deriving Repr, DecidableEq

/-- `checkTokenBucket` (rateLimitService.ts lines 65-110).  `enabled` merges
`this.enabled && this.redis` (line 71).  On a store error the method catches
the error itself and returns the fail-open result (lines 101-109) — the error
does not propagate to the caller. -/
def checkTokenBucket (enabled : Bool) (cfg : TokenBucketConfig) (req : ℚ)
    (now : ℤ) (store : StoreOutcome) : RateLimitResult :=
  if enabled then
    match store with
    | .ok b => serviceResult (tokenBucketScript cfg req now b).2
    | .err => failOpenResult cfg
  else failOpenResult cfg

/-- `checkPerChatLimit` config (rateLimitService.ts lines 115-123):
capacity 20, refill 20/60 tokens per second. -/
def perChatConfig : TokenBucketConfig := ⟨20, 20 / 60⟩

/-- `checkGlobalLimit` config (lines 128-137): capacity 30, refill 30/s. -/
def globalConfig : TokenBucketConfig := ⟨30, 30⟩

/-- `checkBroadcastLimit` config (lines 142-151): capacity 15, refill 15/60. -/
def broadcastConfig : TokenBucketConfig := ⟨15, 15 / 60⟩

/-- Key for the per-chat scope: `rate:chat:<chatId>` (line 116). -/
def chatKey (chatId : ℤ) : String := "rate:chat:" ++ toString chatId

/-- Key for the global scope: `rate:global:<botId or "default">`
(lines 129-130; the middleware passes `ctx.me?.id?.toString()`). -/
def globalKey : Option ℤ → String
  | some botId => "rate:global:" ++ toString botId
  | none => "rate:global:default"

/-- The shared counter store: the records under each key. -/
abbrev Store := String → Option Bucket

/-- Writing one record, as the script's `HMSET` does. -/
def storeSet (s : Store) (k : String) (b : Bucket) : Store :=
  fun k2 => if k2 = k then some b else s k2

/-- `config.rateLimit.behavior.onLimit` (config.ts line 27). -/
inductive OnLimit
  | reject
  | delay
  | queue
deriving Repr, DecidableEq

/-- `config.rateLimit.behavior.onRedisError` (config.ts line 28). -/
inductive OnRedisError
  | allow
  | reject
deriving Repr, DecidableEq

/-- The slice of `config.rateLimit` the middleware reads. -/
structure MWConfig where
  enabled : Bool
  onLimit : OnLimit
  onRedisError : OnRedisError
  queueTimeoutMs : ℤ
deriving Repr, DecidableEq

/-- The request context fields the middleware reads: `ctx.chat?.id`,
`ctx.from?.id`, `ctx.me?.id`, `ctx.callbackQuery`. -/
structure ReqCtx where
  chatId : Option ℤ
  fromId : Option ℤ
  botId : Option ℤ
  isCallbackQuery : Bool
deriving Repr, DecidableEq

/-- The module-level singleton of rateLimit.ts (line 17): whether
`rateLimiter` has been initialized. -/
structure MWState where
  initialized : Bool
deriving Repr, DecidableEq

/-- Store interactions a middleware invocation issues: the liveness probe of
lazy initialization (`RedisService.healthCheck`, rateLimit.ts line 27) and an
atomic consume `EVAL` against a key. -/
inductive StoreOp
  | probe
  | consume (key : String)
deriving Repr, DecidableEq

/-- What the middleware does with the request: call `next()` directly, pause
then call `next()` (`onLimit = "delay"`), refuse with a rate-limit reply
carrying the effective retry hint in ms (`onLimit = "reject"`, lines 103-106),
or refuse via `answerCallbackQuery` (lines 97-101). -/
inductive GateAction
  | proceed
  | delayed (ms : ℤ)
  | rejectedReply (retryAfterMs : Option ℤ)
  | rejectedCallback
deriving Repr, DecidableEq

/-- JavaScript `a || b` on the optional millisecond fields: `a` wins when it
is present and nonzero. -/
def jsOr (a b : Option ℤ) : Option ℤ :=
  match a with
  | some v => if v = 0 then b else some v
  | none => b

/-- JavaScript `a || d` with a numeric default. -/
def jsOrDefault (a : Option ℤ) (d : ℤ) : ℤ :=
  match a with
  | some v => if v = 0 then d else v
  | none => d

/-- The aggregated decision the middleware derives from the two scope results
(rateLimit.ts lines 89-91): denied when either scope denies
(`!perChatResult.allowed || !globalResult.allowed`); `whichLimit` is `"chat"`
when per-chat denied, else `"global"`; the effective retry hint is
`perChatResult.retryAfter || globalResult.retryAfter`. -/
structure AggDecision where
  allowed : Bool
  deniedScope : Option String
  retryAfterMs : Option ℤ
deriving Repr, DecidableEq

/-- Lines 89-91 of rateLimit.ts as a function of the two scope results. -/
def aggregate (perChat globalRes : RateLimitResult) : AggDecision :=
  if perChat.allowed && globalRes.allowed then ⟨true, none, none⟩
  else
    ⟨false,
     some (if perChat.allowed then "global" else "chat"),
     jsOr perChat.retryAfterMs globalRes.retryAfterMs⟩

/-- Everything one middleware invocation produces: the consequence applied to
the request, the store afterwards, the store calls issued, the
`ctx.rateLimit` info attached (line 83), the denying scope logged
(`whichLimit`, line 90/93), and the singleton state afterwards. -/
structure MWOutput where
  action : GateAction
  store : Store
  trace : List StoreOp
  info : Option (RateLimitResult × RateLimitResult)
  loggedScope : Option String
  state : MWState

/-- The `rateLimit` middleware (rateLimit.ts lines 49-136).

* Lines 51-54: feature flag off ⇒ `next()` immediately, nothing else.
* Line 57 / lines 20-44: lazy init; when not yet initialized this issues the
  `healthCheck` liveness probe.  (`healthCheck()` is not awaited, so its
  promise is truthy and initialization always proceeds to create the
  limiter.)
* Lines 64-71: no `chat?.id` (or a chat id of 0, which JavaScript `!chatId`
  also treats as absent) ⇒ `next()`, no bucket touched.
* Lines 73-86: consume 1 token from the per-chat bucket, then 1 from the
  global bucket, attach both results to the context.  When the store fails,
  `checkTokenBucket` catches the error internally and yields the fail-open
  results, so the middleware proceeds; its own catch block (lines 118-135)
  never sees a store error from a consume.
* Lines 88-115: apply `onLimit` when the aggregated decision denies. -/
def rateLimit (cfg : MWConfig) (st : MWState) (ctx : ReqCtx) (store : Store)
    (storeFails : Bool) (now : ℤ) : MWOutput :=
  if cfg.enabled = false then
    ⟨.proceed, store, [], none, none, st⟩
  else
    let initTrace : List StoreOp := if st.initialized then [] else [.probe]
    let st2 : MWState := ⟨true⟩
    match ctx.chatId with
    | none => ⟨.proceed, store, initTrace, none, none, st2⟩
    | some chatId =>
      if chatId = 0 then ⟨.proceed, store, initTrace, none, none, st2⟩
      else
        let ckey := chatKey chatId
        let gkey := globalKey ctx.botId
        let trace := initTrace ++ [StoreOp.consume ckey, StoreOp.consume gkey]
        if storeFails then
          let pc := failOpenResult perChatConfig
          let gl := failOpenResult globalConfig
          ⟨.proceed, store, trace, some (pc, gl), none, st2⟩
        else
          let s1 := tokenBucketScript perChatConfig 1 now (store ckey)
          let store1 := storeSet store ckey s1.1
          let s2 := tokenBucketScript globalConfig 1 now (store1 gkey)
          let store2 := storeSet store1 gkey s2.1
          let pc := serviceResult s1.2
          let gl := serviceResult s2.2
          let agg := aggregate pc gl
          if agg.allowed then
            ⟨.proceed, store2, trace, some (pc, gl), none, st2⟩
          else
            match cfg.onLimit with
            | .reject =>
              if ctx.isCallbackQuery then
                ⟨.rejectedCallback, store2, trace, some (pc, gl), agg.deniedScope, st2⟩
              else
                ⟨.rejectedReply agg.retryAfterMs, store2, trace, some (pc, gl),
                 agg.deniedScope, st2⟩
            | .delay =>
              ⟨.delayed (min (jsOrDefault agg.retryAfterMs 1000) cfg.queueTimeoutMs),
               store2, trace, some (pc, gl), agg.deniedScope, st2⟩
            | .queue =>
              ⟨.proceed, store2, trace, some (pc, gl), agg.deniedScope, st2⟩

/-- The bypass test of `createAdminRateLimit` (rateLimit.ts line 179):
`ctx.from?.id && adminIds.includes(ctx.from.id)` — truthiness makes a sender
id of 0 fail the first conjunct. -/
def adminBypass (adminIds : List ℤ) (fromId : Option ℤ) : Bool :=
  match fromId with
  | some uid => (uid != 0) && adminIds.contains uid
  | none => false

/-- `createAdminRateLimit(adminIds)` (rateLimit.ts lines 176-187): admins get
`next()` directly; everyone else gets the plain `rateLimit` middleware. -/
def createAdminRateLimit (adminIds : List ℤ) (cfg : MWConfig) (st : MWState)
    (ctx : ReqCtx) (store : Store) (storeFails : Bool) (now : ℤ) : MWOutput :=
  if adminBypass adminIds ctx.fromId then
    ⟨.proceed, store, [], none, none, st⟩
  else
    rateLimit cfg st ctx store storeFails now

/-- The record under one key after `n` successive script executions, all with
the same request size and timestamp. -/
def bucketAfter (cfg : TokenBucketConfig) (req : ℚ) (now : ℤ) (b : Option Bucket) :
    ℕ → Option Bucket
  | 0 => b
  | n + 1 => some (tokenBucketScript cfg req now (bucketAfter cfg req now b n)).1

/-- The script reply to call number `n + 1` in that sequence. -/
def callResult (cfg : TokenBucketConfig) (req : ℚ) (now : ℤ) (b : Option Bucket)
    (n : ℕ) : ScriptResult :=
  (tokenBucketScript cfg req now (bucketAfter cfg req now b n)).2

/-- The record after a sequence of script executions with per-call request
sizes and timestamps. -/
def runOps (cfg : TokenBucketConfig) : Option Bucket → List (ℚ × ℤ) → Option Bucket
  | b, [] => b
  | b, op :: rest => runOps cfg (some (tokenBucketScript cfg op.1 op.2 b).1) rest

/-- A well-formed operation sequence: every request size is nonnegative and
the timestamps never decrease, starting from `t`. -/
def validOps : ℤ → List (ℚ × ℤ) → Bool
  | _, [] => true
  | t, op :: rest => decide (0 ≤ op.1) && decide (t ≤ op.2) && validOps op.2 rest

/-- The bucket invariant relative to a clock bound: `0 ≤ tokens ≤ capacity`
and the stored timestamp is at most `t`. -/
def bucketOk (cfg : TokenBucketConfig) (b : Option Bucket) (t : ℤ) : Bool :=
  match b with
  | none => true
  | some bk =>
      decide (0 ≤ bk.tokens) && decide (bk.tokens ≤ cfg.capacity) &&
        decide (bk.lastRefill ≤ t)

/-- Just the token-range part of the invariant: `0 ≤ tokens ≤ capacity`. -/
def bucketTokensOk (cfg : TokenBucketConfig) : Option Bucket → Bool
  | none => true
  | some bk => decide (0 ≤ bk.tokens) && decide (bk.tokens ≤ cfg.capacity)

/-! ## Basic facts about the script -/

theorem refilledTokens_none (cfg : TokenBucketConfig) (now : ℤ) :
    refilledTokens cfg now none = cfg.capacity := by
  simp [refilledTokens]

theorem refilledTokens_some (cfg : TokenBucketConfig) (now : ℤ) (bk : Bucket) :
    refilledTokens cfg now (some bk) =
      min cfg.capacity (bk.tokens + ((now - bk.lastRefill : ℤ) : ℚ) * cfg.refillRate) := rfl

theorem refilledTokens_now (cfg : TokenBucketConfig) (t : ℚ) (now : ℤ) :
    refilledTokens cfg now (some ⟨t, now⟩) = min cfg.capacity t := by
  simp [refilledTokens]

theorem refilledTokens_le (cfg : TokenBucketConfig) (now : ℤ) (b : Option Bucket) :
    refilledTokens cfg now b ≤ cfg.capacity := by
  cases b <;> exact min_le_left _ _

theorem tokenBucketScript_allowed (cfg : TokenBucketConfig) (req : ℚ) (now : ℤ)
    (b : Option Bucket) (h : req ≤ refilledTokens cfg now b) :
    tokenBucketScript cfg req now b =
      (⟨refilledTokens cfg now b - req, now⟩,
       ⟨true, cfg.capacity - (refilledTokens cfg now b - req), none⟩) := by
  simp only [tokenBucketScript, if_pos h]

theorem tokenBucketScript_denied (cfg : TokenBucketConfig) (req : ℚ) (now : ℤ)
    (b : Option Bucket) (h : refilledTokens cfg now b < req) :
    tokenBucketScript cfg req now b =
      (⟨refilledTokens cfg now b, now⟩,
       ⟨false, 0, some ⌈(req - refilledTokens cfg now b) / cfg.refillRate⌉⟩) := by
  simp only [tokenBucketScript, if_neg (not_le.mpr h)]

/-! ## C1 -/

/-- C1: the script is sent as one `EVAL`, so each consume is one atomic step
on the stored record.  Two single-token consume calls racing at the same
timestamp are two successive atomic steps in some order, and when fewer than
two tokens are available after refill, they can never both be allowed: the
winner's write leaves fewer tokens than the loser's request. -/
theorem c1_atomic_last_token (cfg : TokenBucketConfig) (b : Option Bucket) (now : ℤ)
    (h2 : refilledTokens cfg now b < 2) :
    ¬((tokenBucketScript cfg 1 now b).2.allowed = true ∧
      (tokenBucketScript cfg 1 now
          (some (tokenBucketScript cfg 1 now b).1)).2.allowed = true) := by
  rintro ⟨h1, hsec⟩
  rcases le_or_lt 1 (refilledTokens cfg now b) with hle | hlt
  · have hb1 : (tokenBucketScript cfg 1 now b).1 = ⟨refilledTokens cfg now b - 1, now⟩ := by
      rw [tokenBucketScript_allowed cfg 1 now b hle]
    have hlt2 : refilledTokens cfg now (some (tokenBucketScript cfg 1 now b).1) < 1 := by
      rw [hb1, refilledTokens_now]
      have := min_le_right cfg.capacity (refilledTokens cfg now b - 1)
      linarith
    rw [tokenBucketScript_denied cfg 1 now _ hlt2] at hsec
    simp at hsec
  · rw [tokenBucketScript_denied cfg 1 now b hlt] at h1
    simp at h1

theorem c1_atomic_last_token_witness :
    refilledTokens ⟨5, 1⟩ 0 (some ⟨1, 0⟩) < 2 ∧
    ¬((tokenBucketScript ⟨5, 1⟩ 1 0 (some ⟨1, 0⟩)).2.allowed = true ∧
      (tokenBucketScript ⟨5, 1⟩ 1 0
          (some (tokenBucketScript ⟨5, 1⟩ 1 0 (some ⟨1, 0⟩)).1)).2.allowed = true) := by
  have h : refilledTokens ⟨5, 1⟩ 0 (some ⟨1, 0⟩) < 2 := by norm_num [refilledTokens]
  exact ⟨h, c1_atomic_last_token ⟨5, 1⟩ (some ⟨1, 0⟩) 0 h⟩

/-! ## C2 -/

theorem c2_state (C : ℕ) (R : ℚ) (now : ℤ) :
    ∀ k : ℕ, k ≤ C →
      refilledTokens ⟨(C : ℚ), R⟩ now (bucketAfter ⟨(C : ℚ), R⟩ 1 now none k) =
        (C : ℚ) - k := by
  intro k
  induction k with
  | zero =>
    intro _
    simp [bucketAfter, refilledTokens_none]
  | succ n ih =>
    intro hn
    have hn2 : n ≤ C := Nat.le_of_succ_le hn
    have hnC : (n : ℚ) + 1 ≤ (C : ℚ) := by exact_mod_cast hn
    have h1 : (1 : ℚ) ≤ refilledTokens ⟨(C : ℚ), R⟩ now
        (bucketAfter ⟨(C : ℚ), R⟩ 1 now none n) := by
      rw [ih hn2]
      linarith
    show refilledTokens ⟨(C : ℚ), R⟩ now
        (some (tokenBucketScript ⟨(C : ℚ), R⟩ 1 now
          (bucketAfter ⟨(C : ℚ), R⟩ 1 now none n)).1) = _
    rw [tokenBucketScript_allowed _ _ _ _ h1, ih hn2, refilledTokens_now]
    have hnn : (0 : ℚ) ≤ (n : ℚ) := by positivity
    have hub : (C : ℚ) - (n : ℚ) - 1 ≤ (C : ℚ) := by linarith
    rw [min_eq_right hub]
    push_cast
    ring

theorem c2_call_allowed (C : ℕ) (R : ℚ) (now : ℤ) (k : ℕ) (hk : k < C) :
    callResult ⟨(C : ℚ), R⟩ 1 now none k = ⟨true, (k : ℚ) + 1, none⟩ := by
  have hkC : (k : ℚ) + 1 ≤ (C : ℚ) := by exact_mod_cast hk
  have h1 : (1 : ℚ) ≤ refilledTokens ⟨(C : ℚ), R⟩ now
      (bucketAfter ⟨(C : ℚ), R⟩ 1 now none k) := by
    rw [c2_state C R now k hk.le]
    linarith
  unfold callResult
  rw [tokenBucketScript_allowed _ _ _ _ h1, c2_state C R now k hk.le]
  simp only [ScriptResult.mk.injEq]
  exact ⟨trivial, by ring, trivial⟩

theorem c2_call_denied (C : ℕ) (R : ℚ) (now : ℤ) :
    callResult ⟨(C : ℚ), R⟩ 1 now none C = ⟨false, 0, some ⌈(1 : ℚ) / R⌉⟩ := by
  have h0 : refilledTokens ⟨(C : ℚ), R⟩ now (bucketAfter ⟨(C : ℚ), R⟩ 1 now none C) = 0 := by
    rw [c2_state C R now C le_rfl]
    ring
  have hlt : refilledTokens ⟨(C : ℚ), R⟩ now (bucketAfter ⟨(C : ℚ), R⟩ 1 now none C) < 1 := by
    rw [h0]
    norm_num
  unfold callResult
  rw [tokenBucketScript_denied _ _ _ _ hlt, h0]
  norm_num

/-- C2: from an absent record, `C + 1` single-token consume calls at one
timestamp: call `k + 1` (for `k < C`) is allowed and reports
`remaining = capacity - tokensAfter = k + 1` (so remaining runs 1, 2, …, C),
and call `C + 1` is denied with `retryAfter = ceil(1 / refillRate)`;
concretely, with capacity 20 and refillRate 20/60 the 21st call at `now = 0`
is denied with `retryAfter = 3` seconds. -/
theorem c2_burst_sequence (C : ℕ) (R : ℚ) (now : ℤ) (hC : 1 ≤ C) (hR : 0 < R) :
    (∀ k, k < C → callResult ⟨(C : ℚ), R⟩ 1 now none k = ⟨true, (k : ℚ) + 1, none⟩) ∧
    callResult ⟨(C : ℚ), R⟩ 1 now none C = ⟨false, 0, some ⌈(1 : ℚ) / R⌉⟩ ∧
    callResult ⟨(20 : ℚ), 20 / 60⟩ 1 0 none 20 = ⟨false, 0, some 3⟩ := by
  refine ⟨fun k hk => c2_call_allowed C R now k hk, c2_call_denied C R now, ?_⟩
  have h := c2_call_denied 20 (20 / 60) 0
  rw [show ((20 : ℕ) : ℚ) = (20 : ℚ) by norm_num] at h
  rw [h]
  norm_num

theorem c2_burst_sequence_witness :
    (1 ≤ 2 ∧ (0 : ℚ) < 1 ∧ 0 < 2) ∧
    callResult ⟨((2 : ℕ) : ℚ), 1⟩ 1 5 none 0 = ⟨true, ((0 : ℕ) : ℚ) + 1, none⟩ :=
  ⟨⟨by decide, by decide, by decide⟩,
   (c2_burst_sequence 2 1 5 (by decide) (by decide)).1 0 (by decide)⟩

/-! ## C3 -/

/-- C3 counterexample to the final consequence of the claim: when the request
exceeds the capacity the refill clips at `capacity`, and two denials separated
by a nonzero elapsed time (here 5 seconds) report the *same* `retryAfter`, not
a smaller one.  First call at `now = 0` on an absent record, second at
`now = 5` on the record the first persisted. -/
theorem c3_clipped_retry_not_smaller :
    (tokenBucketScript ⟨1, 1⟩ 2 0 none).2.allowed = false ∧
    (tokenBucketScript ⟨1, 1⟩ 2 5
        (some (tokenBucketScript ⟨1, 1⟩ 2 0 none).1)).2.allowed = false ∧
    (tokenBucketScript ⟨1, 1⟩ 2 0 none).2.retryAfter = some 1 ∧
    (tokenBucketScript ⟨1, 1⟩ 2 5
        (some (tokenBucketScript ⟨1, 1⟩ 2 0 none).1)).2.retryAfter = some 1 ∧
    (5 : ℤ) - 0 ≠ 0 := by
  norm_num [tokenBucketScript, refilledTokens]

/-- C3 amended: a denied consume still persists the refilled `(tokens, now)`
and returns `allowed = false, remaining = 0,
retryAfter = ceil((tokensRequested - tokens) / refillRate)`; and two denials
separated by a nonzero elapsed time produce a strictly smaller `retryAfter`
on the second, *provided* the refill does not clip at capacity in between
(`tokens + elapsed * refillRate ≤ capacity`). -/
theorem c3_denied_bookkeeping (cfg : TokenBucketConfig) (req : ℚ) (b : Option Bucket)
    (now now2 : ℤ) (hR : 0 < cfg.refillRate) (hlt : now < now2)
    (hden1 : refilledTokens cfg now b < req)
    (hnoclip : refilledTokens cfg now b + ((now2 - now : ℤ) : ℚ) * cfg.refillRate ≤
      cfg.capacity)
    (hden2 : refilledTokens cfg now b + ((now2 - now : ℤ) : ℚ) * cfg.refillRate < req) :
    (tokenBucketScript cfg req now b).1 = ⟨refilledTokens cfg now b, now⟩ ∧
    (tokenBucketScript cfg req now b).2 =
      ⟨false, 0, some ⌈(req - refilledTokens cfg now b) / cfg.refillRate⌉⟩ ∧
    (tokenBucketScript cfg req now2 (some (tokenBucketScript cfg req now b).1)).2.retryAfter =
      some (⌈(req - refilledTokens cfg now b) / cfg.refillRate⌉ - (now2 - now)) ∧
    ⌈(req - refilledTokens cfg now b) / cfg.refillRate⌉ - (now2 - now) <
      ⌈(req - refilledTokens cfg now b) / cfg.refillRate⌉ := by
  have hfirst := tokenBucketScript_denied cfg req now b hden1
  have he : (0 : ℤ) < now2 - now := by omega
  refine ⟨by rw [hfirst], by rw [hfirst], ?_, sub_lt_self _ (by exact_mod_cast he)⟩
  rw [hfirst]
  have href2 : refilledTokens cfg now2 (some ⟨refilledTokens cfg now b, now⟩) =
      refilledTokens cfg now b + ((now2 - now : ℤ) : ℚ) * cfg.refillRate := by
    rw [refilledTokens_some]
    exact min_eq_right hnoclip
  have hd2 : refilledTokens cfg now2 (some ⟨refilledTokens cfg now b, now⟩) < req := by
    rw [href2]
    exact hden2
  rw [tokenBucketScript_denied _ _ _ _ hd2]
  simp only
  rw [href2]
  congr 1
  have hRne : cfg.refillRate ≠ 0 := ne_of_gt hR
  have hdiv : (req - (refilledTokens cfg now b +
      ((now2 - now : ℤ) : ℚ) * cfg.refillRate)) / cfg.refillRate =
      (req - refilledTokens cfg now b) / cfg.refillRate - ((now2 - now : ℤ) : ℚ) := by
    field_simp
    ring
  rw [hdiv, Int.ceil_sub_int]

theorem c3_denied_bookkeeping_witness :
    ((0 : ℚ) < (20 / 60 : ℚ) ∧ (0 : ℤ) < 1 ∧
      refilledTokens ⟨20, 20 / 60⟩ 0 (some ⟨0, 0⟩) < 1 ∧
      refilledTokens ⟨20, 20 / 60⟩ 0 (some ⟨0, 0⟩) + ((1 - 0 : ℤ) : ℚ) * (20 / 60) ≤ 20 ∧
      refilledTokens ⟨20, 20 / 60⟩ 0 (some ⟨0, 0⟩) + ((1 - 0 : ℤ) : ℚ) * (20 / 60) < 1) ∧
    ⌈((1 : ℚ) - refilledTokens ⟨20, 20 / 60⟩ 0 (some ⟨0, 0⟩)) / (20 / 60 : ℚ)⌉ - (1 - 0) <
      ⌈((1 : ℚ) - refilledTokens ⟨20, 20 / 60⟩ 0 (some ⟨0, 0⟩)) / (20 / 60 : ℚ)⌉ := by
  have h1 : (0 : ℚ) < (20 / 60 : ℚ) := by norm_num
  have h2 : refilledTokens ⟨20, 20 / 60⟩ 0 (some ⟨0, 0⟩) < 1 := by
    norm_num [refilledTokens]
  have h3 : refilledTokens ⟨20, 20 / 60⟩ 0 (some ⟨0, 0⟩) +
      ((1 - 0 : ℤ) : ℚ) * (20 / 60) ≤ 20 := by
    norm_num [refilledTokens]
  have h4 : refilledTokens ⟨20, 20 / 60⟩ 0 (some ⟨0, 0⟩) +
      ((1 - 0 : ℤ) : ℚ) * (20 / 60) < 1 := by
    norm_num [refilledTokens]
  exact ⟨⟨h1, by decide, h2, h3, h4⟩,
    (c3_denied_bookkeeping ⟨20, 20 / 60⟩ 1 (some ⟨0, 0⟩) 0 1 h1 (by decide) h2 h3 h4).2.2.2⟩

/-! ## C4 -/

/-- C4 counterexample: the script computes `elapsed = now - lastRefill`
without any `max(0, ·)` clamp, so a stored `lastRefill = 10` in the future of
`now = 0` *does* reduce the stored `tokens = 5` to `-5`. -/
theorem c4_future_timestamp_counterexample :
    (tokenBucketScript ⟨10, 1⟩ 1 0 (some ⟨5, 10⟩)).1.tokens = -5 ∧
    (tokenBucketScript ⟨10, 1⟩ 1 0 (some ⟨5, 10⟩)).1.tokens < 5 := by
  norm_num [tokenBucketScript, refilledTokens]

/-- C4 amended: the refill uses `elapsed = now - lastRefillTimestamp` with no
clamping, so whenever the stored timestamp lies in the future
(`now < lastRefillTimestamp`) and the refill rate is positive, the refilled
token count — and the token count the call persists — drops strictly below
the stored value. -/
theorem c4_future_timestamp_reduces (cfg : TokenBucketConfig) (bk : Bucket) (now : ℤ)
    (req : ℚ) (hfut : now < bk.lastRefill) (hR : 0 < cfg.refillRate) (hreq : 0 ≤ req) :
    refilledTokens cfg now (some bk) < bk.tokens ∧
    (tokenBucketScript cfg req now (some bk)).1.tokens < bk.tokens := by
  have he : ((now - bk.lastRefill : ℤ) : ℚ) < 0 := by
    have h : now - bk.lastRefill < 0 := by omega
    exact_mod_cast h
  have hneg : ((now - bk.lastRefill : ℤ) : ℚ) * cfg.refillRate < 0 :=
    mul_neg_of_neg_of_pos he hR
  have hmin := min_le_right cfg.capacity
    (bk.tokens + ((now - bk.lastRefill : ℤ) : ℚ) * cfg.refillRate)
  have hlt : refilledTokens cfg now (some bk) < bk.tokens := by
    rw [refilledTokens_some]
    linarith
  refine ⟨hlt, ?_⟩
  rcases le_or_lt req (refilledTokens cfg now (some bk)) with hle | hgt
  · rw [tokenBucketScript_allowed _ _ _ _ hle]
    dsimp only
    linarith
  · rw [tokenBucketScript_denied _ _ _ _ hgt]
    dsimp only
    exact hlt

theorem c4_future_timestamp_reduces_witness :
    ((0 : ℤ) < 10 ∧ (0 : ℚ) < 1 ∧ (0 : ℚ) ≤ 1) ∧
    refilledTokens ⟨10, 1⟩ 0 (some ⟨5, 10⟩) < 5 :=
  ⟨⟨by decide, by decide, by decide⟩,
   (c4_future_timestamp_reduces ⟨10, 1⟩ ⟨5, 10⟩ 0 1 (by decide) (by decide) (by decide)).1⟩

/-! ## C5 -/

theorem bucketOk_dest (cfg : TokenBucketConfig) (bk : Bucket) (t : ℤ)
    (h : bucketOk cfg (some bk) t = true) :
    0 ≤ bk.tokens ∧ bk.tokens ≤ cfg.capacity ∧ bk.lastRefill ≤ t := by
  simpa [bucketOk, Bool.and_eq_true, decide_eq_true_eq, and_assoc] using h

theorem refilledTokens_nonneg (cfg : TokenBucketConfig) (now t0 : ℤ) (b : Option Bucket)
    (hcap : 0 ≤ cfg.capacity) (hR : 0 ≤ cfg.refillRate)
    (hb : bucketOk cfg b t0 = true) (ht : t0 ≤ now) :
    0 ≤ refilledTokens cfg now b := by
  cases b with
  | none =>
    rw [refilledTokens_none]
    exact hcap
  | some bk =>
    obtain ⟨h0, hc, hl⟩ := bucketOk_dest cfg bk t0 hb
    rw [refilledTokens_some]
    have he : (0 : ℚ) ≤ ((now - bk.lastRefill : ℤ) : ℚ) := by
      have h : (0 : ℤ) ≤ now - bk.lastRefill := by omega
      exact_mod_cast h
    have hadd : 0 ≤ ((now - bk.lastRefill : ℤ) : ℚ) * cfg.refillRate := mul_nonneg he hR
    exact le_min hcap (by linarith)

theorem bucketOk_step (cfg : TokenBucketConfig) (req : ℚ) (now t0 : ℤ) (b : Option Bucket)
    (hcap : 0 ≤ cfg.capacity) (hR : 0 ≤ cfg.refillRate) (hreq : 0 ≤ req)
    (hb : bucketOk cfg b t0 = true) (ht : t0 ≤ now) :
    bucketOk cfg (some (tokenBucketScript cfg req now b).1) now = true := by
  have h0 := refilledTokens_nonneg cfg now t0 b hcap hR hb ht
  have hc := refilledTokens_le cfg now b
  rcases le_or_lt req (refilledTokens cfg now b) with hle | hgt
  · rw [tokenBucketScript_allowed _ _ _ _ hle]
    simp only [bucketOk, Bool.and_eq_true, decide_eq_true_eq]
    exact ⟨⟨by linarith, by linarith⟩, le_refl now⟩
  · rw [tokenBucketScript_denied _ _ _ _ hgt]
    simp only [bucketOk, Bool.and_eq_true, decide_eq_true_eq]
    exact ⟨⟨h0, hc⟩, le_refl now⟩

theorem runOps_bucketOk (cfg : TokenBucketConfig) (hcap : 0 ≤ cfg.capacity)
    (hR : 0 ≤ cfg.refillRate) :
    ∀ (ops : List (ℚ × ℤ)) (b : Option Bucket) (t0 : ℤ),
      bucketOk cfg b t0 = true → validOps t0 ops = true →
      bucketTokensOk cfg (runOps cfg b ops) = true := by
  intro ops
  induction ops with
  | nil =>
    intro b t0 hb _
    cases b with
    | none => simp [runOps, bucketTokensOk]
    | some bk =>
      obtain ⟨h1, h2, _⟩ := bucketOk_dest cfg bk t0 hb
      simp only [runOps, bucketTokensOk, Bool.and_eq_true, decide_eq_true_eq]
      exact ⟨h1, h2⟩
  | cons op rest ih =>
    intro b t0 hb hv
    simp only [validOps, Bool.and_eq_true, decide_eq_true_eq] at hv
    obtain ⟨⟨hreq, hle⟩, hrest⟩ := hv
    show bucketTokensOk cfg (runOps cfg (some (tokenBucketScript cfg op.1 op.2 b).1) rest) = true
    exact ih (some (tokenBucketScript cfg op.1 op.2 b).1) op.2
      (bucketOk_step cfg op.1 op.2 t0 b hcap hR hreq hb hle) hrest

theorem validOps_take : ∀ (k : ℕ) (t : ℤ) (ops : List (ℚ × ℤ)),
    validOps t ops = true → validOps t (List.take k ops) = true
  | 0, _, _, _ => rfl
  | _ + 1, _, [], h => h
  | k + 1, t, op :: rest, h => by
    simp only [List.take_succ_cons, validOps, Bool.and_eq_true] at h ⊢
    exact ⟨h.1, validOps_take k op.2 rest h.2⟩

/-- C5 counterexample: the invariant `0 ≤ tokens` fails for a consume
sequence whose timestamps go backwards (wall-clock regression): starting from
an absent record, a single-token consume at `now = 10` and then one at
`now = 0` leave the stored record at `tokens = -1`. -/
theorem c5_negative_tokens_counterexample :
    runOps ⟨10, 1⟩ none [(1, 10), (1, 0)] = some ⟨-1, 0⟩ ∧
    ¬(0 ≤ (-1 : ℚ)) ∧
    bucketTokensOk ⟨10, 1⟩ (runOps ⟨10, 1⟩ none [(1, 10), (1, 0)]) = false := by
  norm_num [runOps, tokenBucketScript, refilledTokens, bucketTokensOk]

/-- C5 amended: along any sequence of consume operations whose request sizes
are nonnegative and whose timestamps never decrease (and with nonnegative
capacity and refill rate), every intermediate stored record satisfies
`0 ≤ tokens ≤ capacity`: the bound holds after each prefix of the
sequence.  Without timestamp monotonicity the code violates the bound. -/
theorem c5_invariant_monotone_clock (cfg : TokenBucketConfig) (b : Option Bucket)
    (t0 : ℤ) (ops : List (ℚ × ℤ)) (hcap : 0 ≤ cfg.capacity) (hR : 0 ≤ cfg.refillRate)
    (hb : bucketOk cfg b t0 = true) (hops : validOps t0 ops = true) :
    ∀ k : ℕ, bucketTokensOk cfg (runOps cfg b (List.take k ops)) = true :=
  fun k => runOps_bucketOk cfg hcap hR (List.take k ops) b t0 hb (validOps_take k t0 ops hops)

theorem c5_invariant_monotone_clock_witness :
    ((0 : ℚ) ≤ 10 ∧ (0 : ℚ) ≤ 1 ∧ bucketOk ⟨10, 1⟩ none 0 = true ∧
      validOps 0 [(1, 0), (1, 5)] = true) ∧
    bucketTokensOk ⟨10, 1⟩ (runOps ⟨10, 1⟩ none (List.take 2 [(1, 0), (1, 5)])) = true :=
  ⟨⟨by decide, by decide, rfl, by decide⟩,
   c5_invariant_monotone_clock ⟨10, 1⟩ none 0 [(1, 0), (1, 5)]
     (by decide) (by decide) rfl (by decide) 2⟩

/-! ## C6 -/

/-- C6 counterexample to "the effective retryAfter is the maximum of the
denying scopes' retry hints": with both scopes denying — the per-chat bucket
at 2/3 token (retry hint 1000 ms) and the global bucket at -30 tokens (retry
hint 2000 ms) — the middleware reports the per-chat hint 1000 ms
(`perChatResult.retryAfter || globalResult.retryAfter`), not the maximum
2000 ms. -/
theorem c6_retry_not_max_counterexample :
    (rateLimit ⟨true, OnLimit.reject, OnRedisError.allow, 5000⟩ ⟨true⟩
        ⟨some 1, some 2, some 1, false⟩
        (fun k => if k = chatKey 1 then some ⟨2 / 3, 0⟩
          else if k = globalKey (some 1) then some ⟨-30, 0⟩ else none) false 0).info =
      some (⟨false, 0, some 1000⟩, ⟨false, 0, some 2000⟩) ∧
    (rateLimit ⟨true, OnLimit.reject, OnRedisError.allow, 5000⟩ ⟨true⟩
        ⟨some 1, some 2, some 1, false⟩
        (fun k => if k = chatKey 1 then some ⟨2 / 3, 0⟩
          else if k = globalKey (some 1) then some ⟨-30, 0⟩ else none) false 0).action =
      GateAction.rejectedReply (some 1000) ∧
    max (1000 : ℤ) 2000 = 2000 ∧ (1000 : ℤ) ≠ 2000 := by
  have hkey : (globalKey (some 1) = chatKey 1) = False := eq_false (by decide)
  have hceil : (⌈(31 : ℚ) / 30⌉ : ℤ) = 2 := by norm_num [Int.ceil_eq_iff]
  refine ⟨?_, ?_, by norm_num, by norm_num⟩ <;>
    norm_num [rateLimit, storeSet, serviceResult, retryAfterToMs, aggregate, jsOr,
      tokenBucketScript, refilledTokens, perChatConfig, globalConfig, failOpenResult,
      hkey, hceil]

/-- C6 amended: the aggregated decision is allowed iff every evaluated scope
allows; when denied, the effective retryAfter is the *first defined* retry
hint, preferring per-chat (per-chat's hint whenever per-chat denies, global's
otherwise) — not the maximum — and the denying scope's identity ("chat" when
per-chat denied, else "global") is retained; in particular, if per-chat
allows but global denies, the aggregated decision is denied and reports
global's retry hint.  (An engine result that is allowed carries no retry
hint, which is the hypothesis `hpc`.) -/
theorem c6_aggregation_first_defined (pc gl : RateLimitResult)
    (hpc : pc.allowed = true → pc.retryAfterMs = none) :
    (aggregate pc gl).allowed = (pc.allowed && gl.allowed) ∧
    ((aggregate pc gl).allowed = false →
      (aggregate pc gl).retryAfterMs = jsOr pc.retryAfterMs gl.retryAfterMs ∧
      (aggregate pc gl).deniedScope =
        some (if pc.allowed then "global" else "chat")) ∧
    (pc.allowed = true → gl.allowed = false →
      (aggregate pc gl).allowed = false ∧
      (aggregate pc gl).retryAfterMs = gl.retryAfterMs) := by
  by_cases hpa : pc.allowed = true
  · have hnone := hpc hpa
    by_cases hga : gl.allowed = true
    · simp [aggregate, hpa, hga]
    · have hga2 : gl.allowed = false := by simpa using hga
      simp [aggregate, hpa, hga2, jsOr, hnone]
  · have hpa2 : pc.allowed = false := by simpa using hpa
    by_cases hga : gl.allowed = true
    · simp [aggregate, hpa2, hga, jsOr]
    · have hga2 : gl.allowed = false := by simpa using hga
      simp [aggregate, hpa2, hga2, jsOr]

theorem c6_aggregation_first_defined_witness :
    ((⟨true, 5, none⟩ : RateLimitResult).allowed = true →
      (⟨true, 5, none⟩ : RateLimitResult).retryAfterMs = none) ∧
    (aggregate ⟨true, 5, none⟩ ⟨false, 0, some 2000⟩).allowed = false ∧
    (aggregate ⟨true, 5, none⟩ ⟨false, 0, some 2000⟩).retryAfterMs = some 2000 :=
  ⟨fun _ => rfl,
   (c6_aggregation_first_defined ⟨true, 5, none⟩ ⟨false, 0, some 2000⟩
     (fun _ => rfl)).2.2 rfl rfl⟩

/-! ## C7 -/

/-- C7 counterexample: a store error during consume is *not* surfaced as a
distinguishable failure.  `checkTokenBucket` catches it and returns the
fail-open result, which coincides exactly with a genuine allowed outcome (a
consume from a bucket holding exactly one token in a capacity-1 config); and
even with `onRedisError = "reject"` the middleware proceeds on a failing
store, because its catch block never sees the error. -/
theorem c7_store_error_swallowed_counterexample :
    checkTokenBucket true ⟨1, 1⟩ 1 0 StoreOutcome.err =
      checkTokenBucket true ⟨1, 1⟩ 1 0 (StoreOutcome.ok (some ⟨1, 0⟩)) ∧
    (checkTokenBucket true ⟨1, 1⟩ 1 0 StoreOutcome.err).allowed = true ∧
    (rateLimit ⟨true, OnLimit.reject, OnRedisError.reject, 5000⟩ ⟨true⟩
        ⟨some 1, some 2, some 3, false⟩ (fun _ => none) true 0).action =
      GateAction.proceed := by
  refine ⟨?_, rfl, rfl⟩
  norm_num [checkTokenBucket, failOpenResult, serviceResult, retryAfterToMs,
    tokenBucketScript, refilledTokens]

/-- C7 amended: a store error raised during a consume is caught inside the
engine (`checkTokenBucket`) itself and converted into the synthetic fail-open
result `allowed = true, remaining = capacity` — an ordinary allowed outcome,
not a distinguishable failure — regardless of the `onRedisError` setting; the
middleware's `onRedisError` boundary therefore never resolves consume-time
store errors, and with a failing store every request proceeds with the store
untouched. -/
theorem c7_fail_open_below_policy (scfg : TokenBucketConfig) (req : ℚ) (n : ℤ)
    (cfg : MWConfig) (st : MWState) (ctx : ReqCtx) (store : Store) (now : ℤ) :
    checkTokenBucket true scfg req n StoreOutcome.err = failOpenResult scfg ∧
    (checkTokenBucket true scfg req n StoreOutcome.err).allowed = true ∧
    (rateLimit cfg st ctx store true now).action = GateAction.proceed ∧
    (rateLimit cfg st ctx store true now).store = store := by
  refine ⟨rfl, rfl, ?_, ?_⟩ <;>
  · unfold rateLimit
    by_cases hen : cfg.enabled = false
    · simp [hen]
    · simp only [if_neg hen]
      cases hc : ctx.chatId with
      | none => rfl
      | some c =>
        by_cases h0 : c = 0
        · simp [h0]
        · simp [h0]

/-! ## C8 -/

/-- C8: with the feature flag off the middleware calls `next()` immediately:
the request is allowed, no store call of any kind is issued (empty trace),
every bucket record is left unchanged, and the singleton state is untouched;
likewise the service's own disabled fallback returns the allowed fail-open
result without consulting the store. -/
theorem c8_disabled_no_store (cfg : MWConfig) (st : MWState) (ctx : ReqCtx)
    (store : Store) (storeFails : Bool) (now : ℤ) (scfg : TokenBucketConfig)
    (req : ℚ) (n : ℤ) (s : StoreOutcome) (hdis : cfg.enabled = false) :
    rateLimit cfg st ctx store storeFails now =
      ⟨GateAction.proceed, store, [], none, none, st⟩ ∧
    checkTokenBucket false scfg req n s = failOpenResult scfg ∧
    (failOpenResult scfg).allowed = true := by
  refine ⟨?_, rfl, rfl⟩
  unfold rateLimit
  rw [if_pos hdis]

theorem c8_disabled_no_store_witness :
    (⟨false, OnLimit.reject, OnRedisError.allow, 5000⟩ : MWConfig).enabled = false ∧
    rateLimit ⟨false, OnLimit.reject, OnRedisError.allow, 5000⟩ ⟨false⟩
        ⟨some 1, some 2, some 3, false⟩ (fun _ => none) false 0 =
      ⟨GateAction.proceed, fun _ => none, [], none, none, ⟨false⟩⟩ :=
  ⟨rfl,
   (c8_disabled_no_store ⟨false, OnLimit.reject, OnRedisError.allow, 5000⟩ ⟨false⟩
     ⟨some 1, some 2, some 3, false⟩ (fun _ => none) false 0 ⟨1, 1⟩ 1 0
     (StoreOutcome.ok none) rfl).1⟩

/-! ## C9 -/

/-- C9 counterexample to "performing no store access": when the limiter is
enabled but not yet initialized, a request with no conversation identifier
still triggers lazy initialization, which issues the store liveness probe
(`RedisService.healthCheck`) — a store call — before the chat-id check
skips evaluation. -/
theorem c9_probe_on_missing_chat_counterexample :
    (rateLimit ⟨true, OnLimit.reject, OnRedisError.allow, 5000⟩ ⟨false⟩
        ⟨none, some 7, some 3, false⟩ (fun _ => none) false 0).trace = [StoreOp.probe] ∧
    [StoreOp.probe] ≠ ([] : List StoreOp) := by
  exact ⟨rfl, by simp⟩

/-- C9 amended: a request with no conversation identifier is reported allowed
and no *bucket* is touched — no consume is issued, the bucket store is
unchanged, and no rate-limit info is attached; the only store interaction the
invocation may issue is the one-time lazy-initialization liveness probe
(every trace entry is the probe). -/
theorem c9_no_chat_no_bucket_access (cfg : MWConfig) (st : MWState)
    (fromId botId : Option ℤ) (cb : Bool) (store : Store) (storeFails : Bool)
    (now : ℤ) :
    (rateLimit cfg st ⟨none, fromId, botId, cb⟩ store storeFails now).action =
      GateAction.proceed ∧
    (rateLimit cfg st ⟨none, fromId, botId, cb⟩ store storeFails now).store = store ∧
    (rateLimit cfg st ⟨none, fromId, botId, cb⟩ store storeFails now).info = none ∧
    (rateLimit cfg st ⟨none, fromId, botId, cb⟩ store storeFails now).trace.all
      (fun op => decide (op = StoreOp.probe)) = true := by
  unfold rateLimit
  by_cases hen : cfg.enabled = false
  · simp [hen]
  · by_cases hin : st.initialized <;> simp [hen, hin]

/-! ## C10 -/

/-- C10 counterexample: because of JavaScript truthiness in
`ctx.from?.id && adminIds.includes(ctx.from.id)`, a sender id of 0 that *is*
a member of `adminIds` is not bypassed: the middleware still runs the full
rate-limit evaluation and issues both consume calls against the store. -/
theorem c10_admin_zero_counterexample :
    ((0 : ℤ) ∈ [(0 : ℤ)]) ∧
    (createAdminRateLimit [0] ⟨true, OnLimit.reject, OnRedisError.allow, 5000⟩ ⟨true⟩
        ⟨some 1, some 0, some 1, false⟩ (fun _ => none) false 0).trace =
      [StoreOp.consume (chatKey 1), StoreOp.consume (globalKey (some 1))] ∧
    [StoreOp.consume (chatKey 1), StoreOp.consume (globalKey (some 1))] ≠
      ([] : List StoreOp) := by
  have hkey : (globalKey (some 1) = chatKey 1) = False := eq_false (by decide)
  refine ⟨by simp, ?_, by simp⟩
  norm_num [createAdminRateLimit, adminBypass, rateLimit, storeSet, serviceResult,
    retryAfterToMs, aggregate, jsOr, tokenBucketScript, refilledTokens,
    perChatConfig, globalConfig, failOpenResult, hkey]

/-- C10 amended: the middleware produced by `createAdminRateLimit` bypasses
rate limiting — calling the downstream handler with no evaluation and no
store access — exactly for contexts whose sender id is present, *nonzero*,
and a member of `adminIds` (a sender id of 0 is falsy in the source's
truthiness test and is not bypassed even when listed); every other context
gets exactly the standard `rateLimit` middleware. -/
theorem c10_admin_bypass (adminIds : List ℤ) (cfg : MWConfig) (st : MWState)
    (ctx : ReqCtx) (store : Store) (storeFails : Bool) (now : ℤ) :
    (∀ uid : ℤ, ctx.fromId = some uid → uid ≠ 0 → adminIds.contains uid = true →
      createAdminRateLimit adminIds cfg st ctx store storeFails now =
        ⟨GateAction.proceed, store, [], none, none, st⟩) ∧
    (adminBypass adminIds ctx.fromId = false →
      createAdminRateLimit adminIds cfg st ctx store storeFails now =
        rateLimit cfg st ctx store storeFails now) := by
  constructor
  · intro uid huid hne hmem
    have hmem2 : uid ∈ adminIds := by simpa using hmem
    have hb : adminBypass adminIds ctx.fromId = true := by
      rw [huid]
      simp [adminBypass, hne, hmem2]
    unfold createAdminRateLimit
    rw [if_pos hb]
  · intro hb
    unfold createAdminRateLimit
    rw [if_neg (by simp [hb])]

theorem c10_admin_bypass_witness :
    ((⟨some 1, some 5, some 1, false⟩ : ReqCtx).fromId = some 5 ∧ (5 : ℤ) ≠ 0 ∧
      ([5] : List ℤ).contains 5 = true) ∧
    createAdminRateLimit [5] ⟨true, OnLimit.reject, OnRedisError.allow, 5000⟩ ⟨true⟩
        ⟨some 1, some 5, some 1, false⟩ (fun _ => none) false 0 =
      ⟨GateAction.proceed, fun _ => none, [], none, none, ⟨true⟩⟩ :=
  ⟨⟨rfl, by decide, by decide⟩,
   (c10_admin_bypass [5] ⟨true, OnLimit.reject, OnRedisError.allow, 5000⟩ ⟨true⟩
     ⟨some 1, some 5, some 1, false⟩ (fun _ => none) false 0).1 5 rfl
     (by decide) (by decide)⟩

end GrammyRateLimit
